import Mathlib

/-
Verification development for the prympt library: a shallow embedding of the
structured-output protocol and the self-correcting query loop, with theorems
settling the frozen claims about the specification.

Sources embedded from the repository:
  prympt/prompt.py   (Prompt: variable extraction, substitution, concatenation,
                      stringification, the query retry loop)
  prympt/response.py (Response: decode, attribute binding, validation)
Parts of the repository whose files are not present (prympt/output.py with the
Output slot model and the markup codec, prympt/exceptions.py with the error
hierarchy) are modelled from the specification; each such definition carries a
doc comment starting with "Modelled from the spec:".
-/

set_option autoImplicit false

namespace Prympt

/--
Modelled from the spec: the error taxonomy of prympt/exceptions.py, which is
missing from the sources. Section 7 of the spec lists MalformedOutput,
ResponseError, PromptError, ConcatenationError and ReplacementError; the
package exports a base class PrymptError, and the code in prompt.py catches
PrymptError and reads a .message field off every caught error, so every one of
the five kinds belongs to the PrymptError family (the test suite confirms
this: test_query expects a ResponseError to escape query through the
PrymptError handler, and test_add_prompt_none expects a ConcatenationError to
satisfy pytest.raises over PromptError). Errors outside the family (backend
level errors, and the interpreter TypeError produced by re-raising None) are
represented by the last three constructors.
-/
inductive PyErr where
  | malformedOutput (msg : String)
  | promptError (msg : String)
  | concatenationError (msg : String)
  | replacementError (msg : String)
  | responseError (msg : String)
  | backendError (msg : String)
  | typeError (msg : String)
  | undefinedError (msg : String)
  | attributeError (msg : String)
deriving DecidableEq, Repr

/-- Modelled from the spec: membership in the PrymptError family, i.e. whether
an except PrymptError clause catches the error. -/
def PyErr.isPrympt : PyErr → Bool
  | .malformedOutput _ => true
  | .promptError _ => true
  | .concatenationError _ => true
  | .replacementError _ => true
  | .responseError _ => true
  | .backendError _ => false
  | .typeError _ => false
  | .undefinedError _ => false
  | .attributeError _ => false

/-- Modelled from the spec: the message field carried by every error. -/
def PyErr.message : PyErr → String
  | .malformedOutput m => m
  | .promptError m => m
  | .concatenationError m => m
  | .replacementError m => m
  | .responseError m => m
  | .backendError m => m
  | .typeError m => m
  | .undefinedError m => m
  | .attributeError m => m

/--
Modelled from the spec: the Output slot of prympt/output.py (missing from the
sources). Section 3: name (identifier-safe string), description (free text),
declared type (closed set, default the string type, written "str" as in the
Python type names the tests use), and content (raw text payload; empty string
stands for the absent payload of a declared slot). Two slots are equal iff all
four fields compare equal, which is structure equality here.
-/
structure Output where
  name : String := ""
  description : String := ""
  type : String := "str"
  content : String := ""
deriving DecidableEq, Repr, Inhabited

/-- Modelled from the spec: the identifier-safe check on slot names (letters,
digits, underscore; no embedded spaces or punctuation). The empty name is
allowed: the tests construct unnamed slots. -/
def validName (s : String) : Bool :=
  s.toList.all fun c => c.isAlphanum || c == '_'

/-- Modelled from the spec: the closed set of declared types, in the Python
spelling used throughout the tests and by convert_to_Python_type in
prympt/utils.py. -/
def validTypes : List String := ["str", "int", "float", "bool"]

/-- Modelled from the spec: strict literal parsing of an integer. -/
def isIntLit (s : String) : Bool :=
  let l := s.toList
  let l := if l.head? == some '-' then l.tail else l
  !l.isEmpty && l.all Char.isDigit

/-- Modelled from the spec: strict literal parsing of a float (an integer
part, optionally followed by a dot and a fractional part). -/
def isFloatLit (s : String) : Bool :=
  let l := s.toList
  let l := if l.head? == some '-' then l.tail else l
  match l.splitOn '.' with
  | [a] => !a.isEmpty && a.all Char.isDigit
  | [a, b] => !a.isEmpty && a.all Char.isDigit && !b.isEmpty && b.all Char.isDigit
  | _ => false

/-- Modelled from the spec: strict literal parsing of a boolean. -/
def isBoolLit (s : String) : Bool :=
  s == "True" || s == "False"

/-- Modelled from the spec: whether the textual content can be coerced to the
declared type by strict literal parsing. The default string type keeps the
raw text, and an absent payload (empty string) is not coerced, since declared
slots carry no payload and must construct for every declared type. -/
def coerceOk (content type : String) : Bool :=
  content == "" ||
    match type with
    | "str" => true
    | "int" => isIntLit content
    | "float" => isFloatLit content || isIntLit content
    | "bool" => isBoolLit content
    | _ => false

/-- Modelled from the spec: Output construction. Fails with MalformedOutput
when the name fails the identifier-safe check, when the declared type is
outside the closed set, or when the content cannot be coerced to the declared
type. -/
def Output.make (name description type content : String) : Except PyErr Output :=
  if !validName name then
    .error (.malformedOutput s!"Invalid output name: {name}")
  else if !validTypes.contains type then
    .error (.malformedOutput s!"Tried to create Output with a non-standard basic Python type: {type}")
  else if !coerceOk content type then
    .error (.malformedOutput s!"Could not cast parameter value {content} to suggested type {type}")
  else
    .ok { name := name, description := description, type := type, content := content }

/-- Modelled from the spec: whether a slot satisfies all construction checks. -/
def Output.valid (o : Output) : Bool :=
  validName o.name && validTypes.contains o.type && coerceOk o.content o.type

/--
Modelled from the spec: one inner element of the markup envelope, as decoded
from the wire (section 6): optional attributes name, description and type,
and a text body. A missing attribute falls back to the slot default.
-/
structure RawElem where
  name : Option String := none
  description : Option String := none
  type : Option String := none
  body : String := ""
deriving DecidableEq, Repr

/--
Modelled from the spec: the shape of a reply text as far as the codec is
concerned. The codec scans free text for occurrences of the outer envelope
tag, tolerating prose around occurrences and one level of fenced-code
wrapping; a text is therefore a sequence of chunks, each either prose or one
well-formed outer envelope (possibly fenced) holding its inner elements in
document order.
-/
inductive Chunk where
  | prose (s : String)
  | env (fenced : Bool) (elems : List RawElem)
deriving DecidableEq, Repr

/-- A reply or prompt text in the chunk representation. -/
abbrev PText := List Chunk

/-- Whether a chunk is plain prose (contains no envelope occurrence). -/
def Chunk.isProse : Chunk → Bool
  | .prose _ => true
  | .env _ _ => false

/-- Modelled from the spec: decoding one inner element into an Output slot;
missing attributes fall back to the slot defaults, and construction performs
the MalformedOutput checks. -/
def rawToOutput (r : RawElem) : Except PyErr Output :=
  Output.make (r.name.getD "") (r.description.getD "") (r.type.getD "str") r.body

/-- Modelled from the spec: the encoding of one slot into an inner element;
name and description are emitted when present, the type only when it is not
the default string type, and the content becomes the element body. -/
def outputToRaw (o : Output) : RawElem :=
  { name := if o.name == "" then none else some o.name,
    description := if o.description == "" then none else some o.description,
    type := if o.type == "str" then none else some o.type,
    body := o.content }

/-- One step of the scan for envelope occurrences: prose keeps the current
candidate, an envelope occurrence replaces it. -/
def lastEnvStep (acc : Option (List RawElem)) : Chunk → Option (List RawElem)
  | .prose _ => acc
  | .env _ es => some es

/-- The last envelope occurrence in a text, if any. -/
def lastEnv (t : PText) : Option (List RawElem) :=
  t.foldl lastEnvStep none

/-- Decoding the inner elements of an envelope, one slot per element in
document order; the first element whose construction fails raises. -/
def decodeElems : List RawElem → Except PyErr (List Output)
  | [] => .ok []
  | r :: rs => do
      let o ← rawToOutput r
      let os ← decodeElems rs
      .ok (o :: os)

/-- Modelled from the spec: decode. The last well-formed envelope occurrence
wins and earlier occurrences are discarded entirely; within it each inner
element becomes one slot in document order; no envelope at all yields the
empty sequence, not an error; an element whose content fails coercion raises
MalformedOutput. -/
def xml_to_outputs (t : PText) : Except PyErr (List Output) :=
  match lastEnv t with
  | none => .ok []
  | some es => decodeElems es

/-- Modelled from the spec: encode. One envelope element per slot in input
order, wrapped in one outer envelope tag. -/
def outputs_to_xml (outs : List Output) : PText :=
  [Chunk.env false (outs.map outputToRaw)]

/--
A Jinja expression, as produced by the external jinja2 parser on the
expression part of a template. Name nodes are the free variable references
the visitor in prompt.py records; lit is a literal; cat is a composite
expression (string concatenation) whose children are visited left to right.
-/
inductive Expr where
  | name (s : String)
  | lit (s : String)
  | cat (a b : Expr)
deriving DecidableEq, Repr

/--
A parsed Jinja template, as produced by the external jinja2 parser: raw text,
an expression interpolation, sequencing, and the for construct with its
loop-bound target name, iterated expression, body and else clause. The
template string of the Python Prompt corresponds to this tree through the
external parser; Tmpl.source below is its surface text.
-/
inductive Tmpl where
  | text (s : String)
  | subst (e : Expr)
  | seq (a b : Tmpl)
  | forNode (target : String) (iter : Expr) (body : Tmpl) (els : Tmpl)
deriving DecidableEq, Repr

/-- The surface text of an expression. -/
def Expr.source : Expr → String
  | .name s => s
  | .lit s => "\"" ++ s ++ "\""
  | .cat a b => a.source ++ " ~ " ++ b.source

/-- The surface text of a template tree. -/
def Tmpl.source : Tmpl → String
  | .text s => s
  | .subst e => "\x7b\x7b " ++ e.source ++ " \x7d\x7d"
  | .seq a b => a.source ++ b.source
  | .forNode t i b e =>
      "\x7b% for " ++ t ++ " in " ++ i.source ++ " %\x7d" ++ b.source ++
        "\x7b% else %\x7d" ++ e.source ++ "\x7b% endfor %\x7d"

/-- Appends a string to the ordered collection if it is not already there:
the body of visit_Name in prompt.py. -/
def insertNew (acc : List String) (s : String) : List String :=
  if s ∈ acc then acc else acc ++ [s]

/-- The OrderedVariableCollector visitor of prompt.py on expressions: every
Name node is recorded in first-appearance order, children left to right. -/
def Expr.collect (acc : List String) : Expr → List String
  | .name s => insertNew acc s
  | .lit _ => acc
  | .cat a b => b.collect (a.collect acc)

/-- The OrderedVariableCollector visitor of prompt.py on statements: visit_For
visits only the iter part, skipping the target, the body and the else clause. -/
def Tmpl.collect (acc : List String) : Tmpl → List String
  | .text _ => acc
  | .subst e => e.collect acc
  | .seq a b => b.collect (a.collect acc)
  | .forNode _ iter _ _ => iter.collect acc

/-- _extract_jinja_variables of prompt.py: run the collector on the parsed
template starting from the empty collection. -/
def _extract_jinja_variables (t : Tmpl) : List String :=
  t.collect []

/-- All free variable references of an expression in traversal order, with
repetitions: the reference stream the visitor consumes. -/
def Expr.occurs : Expr → List String
  | .name s => [s]
  | .lit _ => []
  | .cat a b => a.occurs ++ b.occurs

/-- All free variable references of a template in traversal order, with
repetitions; a for construct contributes only the references of its iterated
expression, so the loop target and everything inside the body and else clause
are excluded. -/
def Tmpl.occurs : Tmpl → List String
  | .text _ => []
  | .subst e => e.occurs
  | .seq a b => a.occurs ++ b.occurs
  | .forNode _ iter _ _ => iter.occurs

/-- First-appearance deduplication of a list of names. -/
def dedupFirst (l : List String) : List String :=
  l.foldl insertNew []

/-- A template value: a string or a list of strings (the iterable case the
tests exercise). -/
inductive Value where
  | str (s : String)
  | list (l : List String)
deriving DecidableEq, Repr

/-- Rendering a value into output text. -/
def Value.render : Value → String
  | .str s => s
  | .list l => String.intercalate ", " l

/-- Dictionary lookup in the keyword bindings. -/
def lookupVar (bs : List (String × Value)) (s : String) : Option Value :=
  (bs.find? fun p => p.1 == s).map (·.2)

/-- Jinja expression evaluation under StrictUndefined: a name missing from
the bindings raises the (non-prympt) undefined error. -/
def Expr.eval (bs : List (String × Value)) : Expr → Except PyErr Value
  | .name s =>
      match lookupVar bs s with
      | some v => .ok v
      | none => .error (.undefinedError s!"{s} is undefined")
  | .lit s => .ok (.str s)
  | .cat a b => do
      let x ← a.eval bs
      let y ← b.eval bs
      .ok (.str (x.render ++ y.render))

/-- The elements a value yields when iterated: a list yields its members, a
string its characters (as in Python). -/
def Value.elems : Value → List String
  | .str s => s.toList.map fun c => String.singleton c
  | .list l => l

/-- Jinja template rendering with the given bindings (_jinja_substitution in
prompt.py, through the external engine): text passes through, substitutions
evaluate their expression, a for construct renders its body once per element
of the iterated value with the target bound, and its else clause when the
value is empty. -/
def Tmpl.render (bs : List (String × Value)) : Tmpl → Except PyErr String
  | .text s => .ok s
  | .subst e => do
      let v ← e.eval bs
      .ok v.render
  | .seq a b => do
      let x ← a.render bs
      let y ← b.render bs
      .ok (x ++ y)
  | .forNode target iter body els => do
      let v ← iter.eval bs
      let es := v.elems
      if es.isEmpty then els.render bs
      else
        es.foldlM (fun acc x => do
          let piece ← body.render ((target, Value.str x) :: bs)
          .ok (acc ++ piece)) ""

/-- A declared tool; only its derived name matters to the Prompt invariants. -/
structure Tool where
  name : String
deriving DecidableEq, Repr

/--
One element of the tools argument to the Prompt constructor. The constructor
signature declares List of Tool, but several call sites in prompt.py pass
self.tools.items(), whose elements are (name, tool) tuples; the dynamic
distinction is what this sum captures.
-/
inductive ToolArg where
  | tool (t : Tool)
  | pair (name : String) (t : Tool)
deriving DecidableEq, Repr

/-- Reading .name off one element of the tools argument, as the dict
comprehension in Prompt.__init__ does: a Tool yields its name, a tuple has no
name attribute and raises AttributeError. -/
def toolArgEntry : ToolArg → Except PyErr (String × Tool)
  | .tool t => .ok (t.name, t)
  | .pair _ _ => .error (.attributeError "tuple object has no attribute name")

/-- Insertion into the tools dict: a repeated key overwrites in place, a new
key is appended (Python dict semantics). -/
def dictInsert (d : List (String × Tool)) (kv : String × Tool) : List (String × Tool) :=
  if d.any (fun p => p.1 == kv.1) then
    d.map fun p => if p.1 == kv.1 then kv else p
  else d ++ [kv]

/-- Union of two tools dicts, right side winning (Python dict union). -/
def dictUnion (a b : List (String × Tool)) : List (String × Tool) :=
  b.foldl dictInsert a

/-- The duplicate-output-name scan of Prompt.__init__: walk the outputs with
their positions, remembering the first position of every name, and record one
message per later duplicate naming both positions. -/
def dupOutputErrorsAux (seen : List (String × Nat)) (i : Nat) : List Output → List String
  | [] => []
  | o :: rest =>
      match seen.find? (fun p => p.1 == o.name) with
      | some p =>
          let firstIdx := p.2
          let nm := o.name
          s!"Found outputs at positions {firstIdx}, {i} with same name: {nm}" ::
            dupOutputErrorsAux seen (i + 1) rest
      | none => dupOutputErrorsAux ((o.name, i) :: seen) (i + 1) rest

/-- All duplicate-output-name messages for an outputs list. -/
def dupOutputErrors (outputs : List Output) : List String :=
  dupOutputErrorsAux [] 0 outputs

/-- A Prompt value: template, declared output slots in order, and the tools
dict in insertion order. -/
structure Prompt where
  template : Tmpl
  outputs : List Output := []
  tools : List (String × Tool) := []
deriving DecidableEq, Repr

/-- The dict comprehension of Prompt.__init__ over the tools argument,
reading .name off every element in order. -/
def buildToolsDict (d : List (String × Tool)) : List ToolArg → Except PyErr (List (String × Tool))
  | [] => .ok d
  | a :: rest => do
      let nt ← toolArgEntry a
      buildToolsDict (dictInsert d nt) rest

/-- Prompt.__init__ of prompt.py: build the tools dict by reading .name off
every element of the tools argument (this is where a tuple raises
AttributeError), then scan the outputs for duplicate names and raise
PromptError listing every collision with both positions. -/
def Prompt.make (template : Tmpl) (outputs : List Output) (tools : List ToolArg) :
    Except PyErr Prompt := do
  let toolsDict ← buildToolsDict [] tools
  let errs := dupOutputErrors outputs
  if errs.isEmpty then
    .ok { template := template, outputs := outputs, tools := toolsDict }
  else
    .error (.promptError (String.intercalate "\n" errs))

/-- Prompt.get_variables of prompt.py (the TemplateSyntaxError branch cannot
arise here, since a Tmpl is already parsed). -/
def Prompt.get_variables (p : Prompt) : List String :=
  _extract_jinja_variables p.template

/-- Prompt.__call__ of prompt.py: bind positional arguments to the first free
variables in extracted order (too many positional arguments or a doubly bound
name raise ReplacementError), render the template with the merged bindings,
and construct the new Prompt, passing the outputs unchanged and the tools
dict through items() — that is, as (name, tool) pairs. -/
def Prompt.call (p : Prompt) (args : List Value) (kwargs : List (String × Value)) :
    Except PyErr Prompt := do
  let vns := p.get_variables
  let na := args.length
  let nv := vns.length
  if na > nv then
    .error (.replacementError
      s!"Provided {na} positional arguments, but prompt template has only {nv} variables")
  else do
    let merged ← (vns.zip args).foldlM (fun (kw : List (String × Value)) pr =>
      let k := pr.1
      if kw.any (fun q => q.1 == k) then
        .error (.replacementError s!"Got multiple values for template variable {k}")
      else .ok (kw ++ [pr])) kwargs
    let rendered ← p.template.render merged
    Prompt.make (.text rendered) p.outputs (p.tools.map fun nt => ToolArg.pair nt.1 nt.2)

/-- Prompt.__add__ of prompt.py on two Prompt operands: check the tool name
sets are disjoint (ConcatenationError otherwise), then construct a Prompt
from the concatenated templates joined by a newline, the concatenated
outputs, and the values of the united tools dict — genuine Tool objects this
time. -/
def Prompt.addPrompt (p q : Prompt) : Except PyErr Prompt :=
  let overlap := (p.tools.map Prod.fst).filter fun n => (q.tools.map Prod.fst).contains n
  if !overlap.isEmpty then
    .error (.concatenationError
      ("Trying to concatenate two prompts with overlapping tools: " ++ String.intercalate ", " overlap))
  else
    Prompt.make (.seq p.template (.seq (.text "\n") q.template)) (p.outputs ++ q.outputs)
      ((dictUnion p.tools q.tools).map fun nt => ToolArg.tool nt.2)

/-- Prompt.__add__ with a string operand: the string becomes a bare Prompt. -/
def Prompt.addStr (p : Prompt) (s : String) : Except PyErr Prompt :=
  p.addPrompt { template := .text s }

/-- The corrective instruction Prompt.error appends, quoting the message of
the failure. -/
def feedbackText (e : PyErr) : String :=
  "\n\nMake sure to avoid the following error in your response: " ++ e.message ++ "\n"

/-- Prompt.error of prompt.py: append the corrective instruction quoting the
message of the failure. -/
def Prompt.errorFeedback (p : Prompt) (e : PyErr) : Except PyErr Prompt :=
  p.addStr (feedbackText e)

/-- The placeholder content Prompt.__str__ writes into the working copy of a
slot. -/
def placeholderContent (o : Output) : String :=
  if o.name != "" then "... value for output " ++ o.name ++ " goes here ..."
  else "... value for this output goes here ..."

/-- Prompt.__str__ / Prompt.to_string of prompt.py, as the produced text (the
warning about unbound variables is a side effect with no bearing on the
result): the template surface text, and, when slots are declared, the
instructional suffix showing the encoding of the slots with placeholder
content substituted on working copies. -/
def Prompt.toText (p : Prompt) : PText :=
  if p.outputs.isEmpty then [Chunk.prose p.template.source]
  else
    let working := p.outputs.map fun o => { o with content := placeholderContent o }
    Chunk.prose (p.template.source ++ "\nProvide your response inside an XML such as this:\n") ::
      outputs_to_xml working

/-- A constructed Response object: the raw reply text, the decoded observed
slots, and the attribute bindings set on the object. -/
structure ResponseObj where
  raw : PText
  outputs : List Output
  attrs : List (String × String)
deriving DecidableEq, Repr

/-- The attribute names that already exist on a freshly constructed Response
object before slot contents are bound: the name-mangled internal fields and
the methods of the class in response.py. -/
def responseMembers : List String :=
  ["_Response__raw_response_text", "_Response__outputs",
   "__init__", "__str__", "__iter__", "__len__", "__getitem__", "__contains__"]

/-- The attribute binding loop of Response.__init__: walk the observed slots
in order and bind a slot content under its name exactly when the name is
non-empty and hasattr is false, i.e. the name is neither a pre-existing
member nor already bound by an earlier slot. -/
def bindAttrsAux (pre : List String) (acc : List (String × String)) :
    List Output → List (String × String)
  | [] => acc
  | o :: rest =>
      if o.name != "" && !pre.contains o.name && !(acc.map Prod.fst).contains o.name then
        bindAttrsAux pre (acc ++ [(o.name, o.content)]) rest
      else bindAttrsAux pre acc rest

/-- The attribute bindings produced by the loop, starting from no bindings. -/
def bindAttrs (pre : List String) (outs : List Output) : List (String × String) :=
  bindAttrsAux pre [] outs

/-- The count-mismatch message of Response.__init__. -/
def countMsg (n m : Nat) : String :=
  s!"Expected {n} outputs in LLM response, but got {m}"

/-- The name-mismatch message of Response.__init__ at one position. -/
def nameMsg (i : Nat) (dn rn : String) : String :=
  s!"Name for output at position {i} ({dn}) differs from the one provided by LLM ({rn})\n"

/-- The type-mismatch message of Response.__init__ at one position. -/
def typeMsg (i : Nat) (dt rt : String) : String :=
  s!"Type for output at position {i} ({dt}) differs from the one provided by LLM ({rt})\n"

/-- The accumulation loop of Response.__init__ over the zipped declared and
observed slots with their positions: one message per name mismatch and one
per type mismatch, in position order, names before types at each position. -/
def mismatchMsgsAux (i : Nat) : List Output → List Output → List String
  | d :: ds, r :: rs =>
      (if d.name ≠ r.name then [nameMsg i d.name r.name] else []) ++
        (if d.type ≠ r.type then [typeMsg i d.type r.type] else []) ++
          mismatchMsgsAux (i + 1) ds rs
  | _, _ => []

/-- All mismatch messages for a declared/observed pair of slot lists. -/
def mismatchMsgs (declared observed : List Output) : List String :=
  mismatchMsgsAux 0 declared observed

/-- Response.__init__ of response.py: decode the reply (MalformedOutput from
the codec escapes here), bind slot contents as attributes, and, when the
prompt declares slots, validate: a count mismatch raises ResponseError naming
both counts, and otherwise the accumulated positional name/type mismatches,
if any, raise one ResponseError joining every message. -/
def Response.make (text : PText) (p : Prompt) : Except PyErr ResponseObj := do
  let outs ← xml_to_outputs text
  let attrs := bindAttrs responseMembers outs
  if p.outputs.isEmpty then
    .ok { raw := text, outputs := outs, attrs := attrs }
  else if p.outputs.length ≠ outs.length then
    .error (.responseError (countMsg p.outputs.length outs.length))
  else
    let errs := mismatchMsgs p.outputs outs
    if errs.isEmpty then
      .ok { raw := text, outputs := outs, attrs := attrs }
    else
      .error (.responseError (String.intercalate "\n" errs))

/-- A backend completion function: given the attempt index and the rendered
prompt text, return the reply text or raise. The attempt index stands for the
internal state of the Python callable across invocations. -/
abbrev Backend := Nat → PText → Except PyErr PText

/-- One attempt of the query loop: render the prompt, invoke the backend, and
construct the Response from the reply against the current prompt. -/
def attempt (llm : Backend) (k : Nat) (p : Prompt) : Except PyErr ResponseObj := do
  let reply ← llm k p.toText
  Response.make reply p

/-- The outcome of Prompt.query: a returned Response or a raised error. -/
inductive QueryOutcome where
  | ok (r : ResponseObj)
  | raised (e : PyErr)
deriving DecidableEq, Repr

/--
The retry loop of Prompt.query in prompt.py, together with the number of
backend invocations it performs. Arguments: the backend, the next attempt
index, the remaining iterations of the for loop, the current prompt, and the
last recorded failure. Each iteration tries one attempt; a PrymptError-family
failure is recorded and the corrective feedback is appended for the next
iteration; any other error propagates uncaught. When the loop ends, the last
recorded failure is re-raised; if there was none (retries = 0), Python
executes raise None, which raises TypeError.
-/
def queryFrom (llm : Backend) : Nat → Nat → Prompt → Option PyErr → QueryOutcome × Nat
  | _, 0, _, last =>
      match last with
      | some e => (.raised e, 0)
      | none => (.raised (.typeError "exceptions must derive from BaseException"), 0)
  | k, n + 1, p, _ =>
      match attempt llm k p with
      | .ok r => (.ok r, 1)
      | .error e =>
          if e.isPrympt then
            match p.errorFeedback e with
            | .ok p' =>
                let res := queryFrom llm (k + 1) n p' (some e)
                (res.1, res.2 + 1)
            | .error e2 => (.raised e2, 1)
          else (.raised e, 1)

/-- Prompt.query of prompt.py, returning the outcome and the number of
backend invocations. -/
def Prompt.query (p : Prompt) (llm : Backend) (retries : Nat) : QueryOutcome × Nat :=
  queryFrom llm 0 retries p none

/-- The prompt in force at the start of attempt j when querying from p with
backend llm and first attempt index k: each failed attempt whose error is in
the PrymptError family appends its corrective feedback. -/
def promptAtFrom (llm : Backend) (k : Nat) (p : Prompt) : Nat → Prompt
  | 0 => p
  | j + 1 =>
      let q := promptAtFrom llm k p j
      match attempt llm (k + j) q with
      | .ok _ => q
      | .error e =>
          if e.isPrympt then
            match q.errorFeedback e with
            | .ok q' => q'
            | .error _ => q
          else q

/-- The prompt in force at the start of attempt j of Prompt.query. -/
def promptAt (llm : Backend) (p : Prompt) (j : Nat) : Prompt :=
  promptAtFrom llm 0 p j

/-
A small heap model for the mutation claim about Prompt.__str__. Python slots
are heap objects reached through references; __str__ deep-copies the outputs
list and then assigns placeholder content on the copies. The heap is a list
of Output cells addressed by position, and a prompt holds references into it.
-/

/-- A heap of Output cells, addressed by position. -/
abbrev Heap := List Output

/-- Reading a heap cell. -/
def heapGet (h : Heap) (r : Nat) : Output :=
  h.getD r default

/-- A Prompt whose outputs live on the heap, for the mutation analysis of
Prompt.__str__. -/
structure PromptH where
  template : Tmpl
  outputRefs : List Nat := []
  tools : List (String × Tool) := []
deriving DecidableEq, Repr

/-- copy.deepcopy on the outputs list: fresh cells holding copies of the
referenced slots are appended to the heap, and the fresh references are
returned. -/
def deepcopyAlloc (h : Heap) (refs : List Nat) : List Nat × Heap :=
  ((List.range refs.length).map fun i => h.length + i, h ++ refs.map (heapGet h))

/-- The in-place assignment output.content = ... on the cell at r. -/
def setContent (h : Heap) (r : Nat) (c : String) : Heap :=
  h.set r { heapGet h r with content := c }

/-- Prompt.__str__ of prompt.py over the heap model: when slots are declared,
deep-copy them, assign placeholder content to every copy in place, and render
the template text followed by the instructional suffix encoding the copies;
the pair returned is the produced text and the post-state of the heap. -/
def promptStrH (p : PromptH) (h : Heap) : PText × Heap :=
  if p.outputRefs.isEmpty then ([Chunk.prose p.template.source], h)
  else
    let wh := deepcopyAlloc h p.outputRefs
    let h2 := wh.1.foldl (fun hh r => setContent hh r (placeholderContent (heapGet hh r))) wh.2
    (Chunk.prose (p.template.source ++ "\nProvide your response inside an XML such as this:\n") ::
      outputs_to_xml (wh.1.map (heapGet h2)), h2)

/-
Concrete inputs used by the witnesses and counterexamples below.
-/

/-- A backend whose reply contains no envelope at all, on every attempt. -/
def llmEmptyReply : Backend := fun _ _ => .ok []

/-- A prompt declaring one output slot named a. -/
def pOneSlot : Prompt :=
  { template := .text "hi", outputs := [{ name := "a" }] }

/-- A backend whose reply carries an envelope whose inner element declares an
integer type over non-numeric content, so that decoding it raises
MalformedOutput. -/
def llmBadCast : Backend :=
  fun _ _ => .ok [Chunk.env false [{ name := some "a", type := some "int", body := "hello" }]]

/-- A prompt with no declared slots and no tools. -/
def pPlain : Prompt :=
  { template := .text "hi" }

/-- A backend that raises a backend-level (non-prympt) error on every
attempt. -/
def llmBackendBoom : Backend := fun _ _ => .error (.backendError "boom")

/-- A prompt carrying one declared tool. -/
def pWithTool : Prompt :=
  { template := .text "hi", tools := [("write_file", { name := "write_file" })] }

/-- The reply text whose decoding raises MalformedOutput: an inner element of
integer type with non-numeric content. -/
def badCastText : PText :=
  [Chunk.env false [{ type := some "int", body := "hello" }]]

/-- A prompt declaring two output slots named a and b. -/
def pTwoSlots : Prompt :=
  { template := .text "", outputs := [{ name := "a" }, { name := "b" }] }

/-- A reply carrying slots named b and a, the second of integer type, so that
positions 0 and 1 mismatch on name and position 1 also on type. -/
def swappedReply : PText :=
  [Chunk.env false [{ name := some "b", body := "x" }, { name := some "a", type := some "int", body := "5" }]]

/-- The inner elements of the earlier envelope in the last-wins witness. -/
def e1Elems : List RawElem := [{ name := some "color", description := some "Red" }]

/-- The inner elements of the later, fenced envelope in the last-wins
witness. -/
def e2Elems : List RawElem := [{ name := some "color", body := "red" }]

/-- The slot list of the round-trip witness, mirroring
test_conversion_xml_outputs. -/
def roundtripSlots : List Output :=
  [{ name := "greeting", description := "A greeting", content := "Hello World" },
   { name := "answer", description := "The answer to everything", type := "int", content := "42" },
   { name := "numbers", description := "A list of numbers", content := "[1, 2, 3]" }]

/-- The heap of the mutation witness: two slots. -/
def heapW : Heap :=
  [{ name := "text", description := "color, e.g. red" }, { name := "json", content := "[1]" }]

/-- The prompt of the mutation witness, referencing both heap cells. -/
def pHeapW : PromptH :=
  { template := .text "Indicate the color of the sky", outputRefs := [0, 1] }

/-- The decode of swappedReply. -/
def obsW : List Output :=
  [{ name := "b", content := "x" }, { name := "a", type := "int", content := "5" }]

/-- The observed slots of the attribute-binding witness: a duplicate name, an
unnamed slot, and a name colliding with a pre-existing member. -/
def attrOutsW : List Output :=
  [{ name := "python", content := "a = 10" },
   { name := "", content := "anonymous" },
   { name := "python", content := "second" },
   { name := "__str__", content := "clash" },
   { name := "text", content := "lorem" }]

/-
Variable extraction: the accumulator-passing visitor agrees with
first-appearance deduplication of the reference stream.
-/

theorem collect_expr_eq_foldl (e : Expr) : ∀ acc, e.collect acc = e.occurs.foldl insertNew acc := by
  induction e with
  | name s => intro acc; rfl
  | lit s => intro acc; rfl
  | cat a b iha ihb =>
      intro acc
      simp [Expr.collect, Expr.occurs, List.foldl_append, iha, ihb]

theorem collect_tmpl_eq_foldl (t : Tmpl) : ∀ acc, t.collect acc = t.occurs.foldl insertNew acc := by
  induction t with
  | text s => intro acc; rfl
  | subst e => intro acc; simp [Tmpl.collect, Tmpl.occurs, collect_expr_eq_foldl]
  | seq a b iha ihb =>
      intro acc
      simp [Tmpl.collect, Tmpl.occurs, List.foldl_append, iha, ihb]
  | forNode target iter body els ihb ihe =>
      intro acc
      simp [Tmpl.collect, Tmpl.occurs, collect_expr_eq_foldl]

theorem foldl_insertNew_nodup : ∀ (l acc : List String), acc.Nodup → (l.foldl insertNew acc).Nodup := by
  intro l
  induction l with
  | nil => intro acc h; exact h
  | cons s rest ih =>
      intro acc h
      simp only [List.foldl_cons]
      apply ih
      unfold insertNew
      split
      · exact h
      · next hs => simp [List.nodup_append, h, hs]

/--
C8: for every template body, get_variables returns each free variable name
exactly once, in order of first appearance (the extraction equals the
first-appearance deduplication of the full reference stream, in which a for
construct contributes only the references of its iterated expression, so the
loop-bound target and every name occurring only inside the loop body or else
clause never appear); in particular a body referencing a, b, a, c yields
[a, b, c], and a loop over items printing only the loop variable yields
[items].
-/
theorem extract_variables_first_appearance :
    (∀ t : Tmpl, (_extract_jinja_variables t).Nodup) ∧
    (∀ t : Tmpl, _extract_jinja_variables t = dedupFirst t.occurs) ∧
    (∀ (target : String) (iter : Expr) (body els : Tmpl),
      _extract_jinja_variables (Tmpl.forNode target iter body els) =
        _extract_jinja_variables (Tmpl.subst iter)) ∧
    _extract_jinja_variables (Tmpl.seq (.subst (.name "a")) (Tmpl.seq (.subst (.name "b"))
      (Tmpl.seq (.subst (.name "a")) (.subst (.name "c"))))) = ["a", "b", "c"] ∧
    _extract_jinja_variables (Tmpl.forNode "x" (.name "items") (.subst (.name "x")) (.text "")) =
      ["items"] := by
  refine ⟨?_, ?_, ?_, by rfl, by rfl⟩
  · intro t
    unfold _extract_jinja_variables
    rw [collect_tmpl_eq_foldl]
    exact foldl_insertNew_nodup _ _ List.nodup_nil
  · intro t
    unfold _extract_jinja_variables dedupFirst
    exact collect_tmpl_eq_foldl t []
  · intro target iter body els
    rfl

/-
Codec round trip and the last-occurrence-wins policy.
-/

theorem rawToOutput_outputToRaw (o : Output) (h : o.valid = true) :
    rawToOutput (outputToRaw o) = .ok o := by
  unfold Output.valid at h
  simp only [Bool.and_eq_true] at h
  obtain ⟨⟨h1, h2⟩, h3⟩ := h
  unfold rawToOutput outputToRaw Output.make
  have hname : (if o.name = "" then none else some o.name).getD "" = o.name := by
    split <;> simp_all
  have hdesc : (if o.description = "" then none else some o.description).getD "" = o.description := by
    split <;> simp_all
  have htype : (if o.type = "str" then none else some o.type).getD "str" = o.type := by
    split <;> simp_all
  have h2m : o.type ∈ validTypes := by simpa using h2
  simp [hname, hdesc, htype, h1, h2m, h3]

theorem decodeElems_outputToRaw (slots : List Output) (hv : ∀ o ∈ slots, o.valid = true) :
    decodeElems (slots.map outputToRaw) = .ok slots := by
  induction slots with
  | nil => rfl
  | cons o rest ih =>
      have ho := rawToOutput_outputToRaw o (hv o (by simp))
      have hrest := ih fun x hx => hv x (by simp [hx])
      simp only [List.map_cons, decodeElems, ho, hrest]
      rfl

/--
C7: for every sequence of valid Output slots with pairwise distinct names,
decoding the encoding gives back the same sequence, slot equality being
equality of all four fields (structure equality here).
-/
theorem decode_encode_roundtrip (slots : List Output)
    (hv : ∀ o ∈ slots, o.valid = true)
    (_hn : (slots.map Output.name).Nodup) :
    xml_to_outputs (outputs_to_xml slots) = .ok slots := by
  unfold xml_to_outputs outputs_to_xml lastEnv
  simp only [List.foldl_cons, List.foldl_nil, lastEnvStep]
  exact decodeElems_outputToRaw slots hv

/-- Witness for C7 at the slots of test_conversion_xml_outputs. -/
theorem decode_encode_roundtrip_witness :
    xml_to_outputs (outputs_to_xml roundtripSlots) = .ok roundtripSlots :=
  decode_encode_roundtrip roundtripSlots (by decide) (by decide)

theorem foldl_lastEnvStep_prose (l : PText) :
    ∀ acc, (∀ c ∈ l, c.isProse = true) → l.foldl lastEnvStep acc = acc := by
  induction l with
  | nil => intro acc _; rfl
  | cons c rest ih =>
      intro acc h
      have hc := h c (by simp)
      cases c with
      | prose s => exact ih acc fun x hx => h x (by simp [hx])
      | env f es => simp [Chunk.isProse] at hc

/--
C5: for every input text containing two well-formed outer envelopes E1 then
E2 (possibly separated by prose and possibly fenced), decode returns exactly
what decoding E2 alone returns — E2's slots in document order; no slot of E1
appears and the envelopes are never merged.
-/
theorem decode_last_envelope_wins (pre mid : PText) (f1 f2 : Bool)
    (es1 es2 : List RawElem)
    (hpre : ∀ c ∈ pre, c.isProse = true) (hmid : ∀ c ∈ mid, c.isProse = true) :
    xml_to_outputs (pre ++ Chunk.env f1 es1 :: (mid ++ [Chunk.env f2 es2])) =
      xml_to_outputs [Chunk.env f2 es2] ∧
    xml_to_outputs [Chunk.env f2 es2] = decodeElems es2 := by
  constructor
  · unfold xml_to_outputs lastEnv
    rw [List.foldl_append, List.foldl_cons, foldl_lastEnvStep_prose pre none hpre,
      List.foldl_append, foldl_lastEnvStep_prose mid (lastEnvStep none (Chunk.env f1 es1)) hmid]
    rfl
  · rfl

/-- Witness for C5 at the shape of test_multiple_xmls: an early envelope, a
prose paragraph, then a fenced envelope that wins. -/
theorem decode_last_envelope_wins_witness :
    xml_to_outputs ([] ++ Chunk.env false e1Elems ::
        ([Chunk.prose "However, red is warm"] ++ [Chunk.env true e2Elems])) =
      .ok [{ name := "color", content := "red" }] :=
  (decode_last_envelope_wins [] [Chunk.prose "However, red is warm"] false true
      e1Elems e2Elems (by decide) (by decide)).1.trans (by rfl)

/-
Response validation: the mismatch scan and the shape of the raised errors.
-/

theorem mismatchMsgsAux_nil_iff :
    ∀ (d o : List Output) (i : Nat), d.length = o.length →
      (mismatchMsgsAux i d o = [] ↔ ∀ j, j < d.length →
        (d.getD j default).name = (o.getD j default).name ∧
        (d.getD j default).type = (o.getD j default).type) := by
  intro d
  induction d with
  | nil =>
      intro o i h
      cases o with
      | nil => simp [mismatchMsgsAux]
      | cons y os => simp at h
  | cons x ds ih =>
      intro o i h
      cases o with
      | nil => simp at h
      | cons y os =>
          have heq : (mismatchMsgsAux i (x :: ds) (y :: os) = []) ↔
              (x.name = y.name ∧ x.type = y.type ∧ mismatchMsgsAux (i + 1) ds os = []) := by
            by_cases hn : x.name = y.name <;> by_cases ht : x.type = y.type <;>
              simp [mismatchMsgsAux, hn, ht]
          rw [heq, ih os (i + 1) (by simpa using h)]
          constructor
          · rintro ⟨hn, ht, hrest⟩ j hj
            cases j with
            | zero => simpa using ⟨hn, ht⟩
            | succ j => simpa using hrest j (by simpa using hj)
          · intro hall
            refine ⟨?_, ?_, fun j hj => ?_⟩
            · simpa using (hall 0 (by simp)).1
            · simpa using (hall 0 (by simp)).2
            · simpa using hall (j + 1) (by simpa using hj)

theorem nameMsg_mem :
    ∀ (d o : List Output) (i j : Nat), j < d.length → j < o.length →
      (d.getD j default).name ≠ (o.getD j default).name →
      nameMsg (i + j) (d.getD j default).name (o.getD j default).name ∈ mismatchMsgsAux i d o := by
  intro d
  induction d with
  | nil => intro o i j hj _ _; simp at hj
  | cons x ds ih =>
      intro o i j hjd hjo hne
      cases o with
      | nil => simp at hjo
      | cons y os =>
          cases j with
          | zero =>
              simp only [List.getD_cons_zero] at hne ⊢
              simp [mismatchMsgsAux, hne]
          | succ j =>
              simp only [List.getD_cons_succ] at hne ⊢
              have harith : i + (j + 1) = (i + 1) + j := by omega
              rw [harith]
              have hrec := ih os (i + 1) j (by simpa using hjd) (by simpa using hjo) hne
              simp only [mismatchMsgsAux]
              exact List.mem_append_right _ hrec

theorem typeMsg_mem :
    ∀ (d o : List Output) (i j : Nat), j < d.length → j < o.length →
      (d.getD j default).type ≠ (o.getD j default).type →
      typeMsg (i + j) (d.getD j default).type (o.getD j default).type ∈ mismatchMsgsAux i d o := by
  intro d
  induction d with
  | nil => intro o i j hj _ _; simp at hj
  | cons x ds ih =>
      intro o i j hjd hjo hne
      cases o with
      | nil => simp at hjo
      | cons y os =>
          cases j with
          | zero =>
              simp only [List.getD_cons_zero] at hne ⊢
              simp [mismatchMsgsAux, hne]
          | succ j =>
              simp only [List.getD_cons_succ] at hne ⊢
              have harith : i + (j + 1) = (i + 1) + j := by omega
              rw [harith]
              have hrec := ih os (i + 1) j (by simpa using hjd) (by simpa using hjo) hne
              simp only [mismatchMsgsAux]
              exact List.mem_append_right _ hrec

/--
C2 counterexample: a Prompt declaring zero output slots for which Response
construction does not succeed — the reply carries an envelope whose inner
element fails type coercion, so the decode step raises MalformedOutput before
any validation; the claim that construction always succeeds with zero
declared slots is therefore false at this input.
-/
theorem response_zero_slots_counterexample :
    pPlain.outputs = [] ∧
    Response.make badCastText pPlain =
      .error (.malformedOutput "Could not cast parameter value hello to suggested type int") :=
  ⟨rfl, rfl⟩

/--
C2 amended: provided the decode step of the reply succeeds (raises no
MalformedOutput), Response construction behaves as claimed: with zero
declared slots it succeeds; with a declared/observed count mismatch it fails
with a ResponseError naming both counts; with matching counts it succeeds
exactly when every position agrees on name and type, and otherwise raises a
single ResponseError joining the accumulated messages, which contain one
entry for every offending position naming the declared and observed pair —
not only the first mismatch.
-/
theorem response_validation (text : PText) (p : Prompt) (obs : List Output)
    (hdec : xml_to_outputs text = .ok obs) :
    (p.outputs = [] →
      Response.make text p =
        .ok { raw := text, outputs := obs, attrs := bindAttrs responseMembers obs }) ∧
    (p.outputs ≠ [] → p.outputs.length ≠ obs.length →
      Response.make text p = .error (.responseError (countMsg p.outputs.length obs.length))) ∧
    (p.outputs ≠ [] → p.outputs.length = obs.length →
      ((Response.make text p =
          .ok { raw := text, outputs := obs, attrs := bindAttrs responseMembers obs }) ↔
        ∀ j, j < p.outputs.length →
          (p.outputs.getD j default).name = (obs.getD j default).name ∧
          (p.outputs.getD j default).type = (obs.getD j default).type) ∧
      (mismatchMsgs p.outputs obs ≠ [] →
        Response.make text p =
          .error (.responseError (String.intercalate "\n" (mismatchMsgs p.outputs obs)))) ∧
      (∀ j, j < p.outputs.length →
        (p.outputs.getD j default).name ≠ (obs.getD j default).name →
        nameMsg j (p.outputs.getD j default).name (obs.getD j default).name ∈
          mismatchMsgs p.outputs obs) ∧
      (∀ j, j < p.outputs.length →
        (p.outputs.getD j default).type ≠ (obs.getD j default).type →
        typeMsg j (p.outputs.getD j default).type (obs.getD j default).type ∈
          mismatchMsgs p.outputs obs)) := by
  have hmake : Response.make text p =
      (if p.outputs.isEmpty then
        Except.ok { raw := text, outputs := obs, attrs := bindAttrs responseMembers obs }
      else if p.outputs.length ≠ obs.length then
        Except.error (.responseError (countMsg p.outputs.length obs.length))
      else
        let errs := mismatchMsgs p.outputs obs
        if errs.isEmpty then
          Except.ok { raw := text, outputs := obs, attrs := bindAttrs responseMembers obs }
        else
          Except.error (.responseError (String.intercalate "\n" errs))) := by
    unfold Response.make
    rw [hdec]
    rfl
  refine ⟨?_, ?_, ?_⟩
  · intro h
    rw [hmake]
    simp [h]
  · intro h hne
    rw [hmake]
    simp [List.isEmpty_iff, h, hne]
  · intro h hlen
    have hnn : ¬(p.outputs.length ≠ obs.length) := by omega
    have hie : p.outputs.isEmpty = false := by simpa [List.isEmpty_iff] using h
    have hmake2 : Response.make text p =
        (if (mismatchMsgs p.outputs obs).isEmpty then
          Except.ok { raw := text, outputs := obs, attrs := bindAttrs responseMembers obs }
        else
          Except.error (.responseError (String.intercalate "\n" (mismatchMsgs p.outputs obs)))) := by
      rw [hmake]
      simp [hie, hnn]
    refine ⟨?_, ?_, ?_, ?_⟩
    · rw [hmake2]
      constructor
      · intro hok
        have hnil : mismatchMsgs p.outputs obs = [] := by
          by_contra hcon
          have hf : ¬(mismatchMsgs p.outputs obs).isEmpty = true := by
            simpa [List.isEmpty_iff] using hcon
          rw [if_neg hf] at hok
          exact absurd hok (by simp)
        exact (mismatchMsgsAux_nil_iff p.outputs obs 0 hlen).mp hnil
      · intro hall
        have hnil : mismatchMsgs p.outputs obs = [] :=
          (mismatchMsgsAux_nil_iff p.outputs obs 0 hlen).mpr hall
        simp [hnil]
    · intro hne
      rw [hmake2, if_neg (by simpa [List.isEmpty_iff] using hne)]
    · intro j hj hne
      simpa [mismatchMsgs] using nameMsg_mem p.outputs obs 0 j hj (by omega) hne
    · intro j hj hne
      simpa [mismatchMsgs] using typeMsg_mem p.outputs obs 0 j hj (by omega) hne

/-- Witness for the amended C2 at a concrete swapped reply: both positions
mismatch on name and position 1 also on type; construction raises the single
joined ResponseError and the message list contains an entry for each. -/
theorem response_validation_witness :
    Response.make swappedReply pTwoSlots =
      .error (.responseError (String.intercalate "\n" (mismatchMsgs pTwoSlots.outputs obsW))) ∧
    nameMsg 0 "a" "b" ∈ mismatchMsgs pTwoSlots.outputs obsW ∧
    typeMsg 1 "str" "int" ∈ mismatchMsgs pTwoSlots.outputs obsW := by
  have h := response_validation swappedReply pTwoSlots obsW rfl
  have h3 := h.2.2 (by decide) (by rfl)
  refine ⟨h3.2.1 (by decide), ?_, ?_⟩
  · simpa using h3.2.2.1 0 (by decide) (by decide)
  · simpa using h3.2.2.2 1 (by decide) (by decide)

/-
Attribute binding on the Response object.
-/

/-- Lookup of an attribute value by name in the binding list. -/
def attrLookup (attrs : List (String × String)) (n : String) : Option String :=
  (attrs.find? fun q => q.1 == n).map (·.2)

theorem bindAttrsAux_names_nodup (pre : List String) :
    ∀ (outs : List Output) (acc : List (String × String)),
      (acc.map Prod.fst).Nodup → ((bindAttrsAux pre acc outs).map Prod.fst).Nodup := by
  intro outs
  induction outs with
  | nil => intro acc h; exact h
  | cons o rest ih =>
      intro acc h
      unfold bindAttrsAux
      split
      · next hc =>
          apply ih
          simp only [Bool.and_eq_true] at hc
          have hnotin : o.name ∉ acc.map Prod.fst := by
            simpa using hc.2
          simp only [List.map_append, List.map_cons, List.map_nil]
          exact h.append (by simp) (by simpa using hnotin)
      · exact ih acc h

theorem bindAttrsAux_names_mem (pre : List String) :
    ∀ (outs : List Output) (acc : List (String × String)) (n : String),
      n ∈ (bindAttrsAux pre acc outs).map Prod.fst →
      n ∈ acc.map Prod.fst ∨ (n ∉ pre ∧ n ≠ "" ∧ ∃ o ∈ outs, o.name = n) := by
  intro outs
  induction outs with
  | nil => intro acc n h; exact Or.inl h
  | cons o rest ih =>
      intro acc n h
      unfold bindAttrsAux at h
      split at h
      · next hc =>
          simp only [Bool.and_eq_true] at hc
          rcases ih _ n h with hacc | hnew
          · rcases (by simpa using hacc : n ∈ acc.map Prod.fst ∨ n = o.name) with h1 | h1
            · exact Or.inl h1
            · refine Or.inr ⟨?_, ?_, o, by simp, h1.symm⟩
              · subst h1
                simpa using hc.1.2
              · subst h1
                simpa using hc.1.1
          · exact Or.inr ⟨hnew.1, hnew.2.1, hnew.2.2.elim fun x hx => ⟨x, by simp [hx.1], hx.2⟩⟩
      · rcases ih acc n h with hacc | hnew
        · exact Or.inl hacc
        · exact Or.inr ⟨hnew.1, hnew.2.1, hnew.2.2.elim fun x hx => ⟨x, by simp [hx.1], hx.2⟩⟩

theorem attrLookup_append_single (m c n : String) (acc : List (String × String)) :
    attrLookup (acc ++ [(m, c)]) n = (attrLookup acc n).or (if m == n then some c else none) := by
  simp only [attrLookup, List.find?_append]
  rcases hf : List.find? (fun q => q.1 == n) acc with _ | q
  · by_cases h : m = n
    · have h' : (m == n) = true := by simpa using h
      simp [List.find?, h', hf]
    · have h' : (m == n) = false := by simpa using h
      simp [List.find?, h', hf]
  · simp [hf]

theorem attrLookup_eq_none_of_not_mem (n : String) :
    ∀ acc : List (String × String), n ∉ acc.map Prod.fst → attrLookup acc n = none := by
  intro acc
  induction acc with
  | nil => intro _; rfl
  | cons p acc ih =>
      intro h
      simp only [List.map_cons, List.mem_cons] at h
      push_neg at h
      have hp : (p.1 == n) = false := beq_eq_false_iff_ne.mpr fun hh => h.1 hh.symm
      have ih' := ih h.2
      simp only [attrLookup] at ih' ⊢
      simp [List.find?, hp, ih']

theorem attrLookup_isSome_of_mem (n : String) :
    ∀ acc : List (String × String), n ∈ acc.map Prod.fst → ∃ v, attrLookup acc n = some v := by
  intro acc
  induction acc with
  | nil => intro h; simp at h
  | cons p acc ih =>
      intro h
      by_cases hp : p.1 = n
      · have hp' : (p.1 == n) = true := by simpa using hp
        exact ⟨p.2, by simp [attrLookup, List.find?, hp']⟩
      · have hp' : (p.1 == n) = false := by simpa using hp
        simp only [List.map_cons, List.mem_cons] at h
        rcases h with h | h
        · exact absurd h.symm hp
        · obtain ⟨v, hv⟩ := ih h
          refine ⟨v, ?_⟩
          simp only [attrLookup] at hv ⊢
          simp [List.find?, hp', hv]

theorem bindAttrsAux_lookup (pre : List String) :
    ∀ (outs : List Output) (acc : List (String × String)) (n : String),
      n ≠ "" → n ∉ pre →
      attrLookup (bindAttrsAux pre acc outs) n =
        ((attrLookup acc n).or ((outs.find? fun o => o.name == n).map (·.content))) := by
  intro outs
  induction outs with
  | nil => intro acc n _ _; simp [bindAttrsAux, attrLookup]
  | cons o rest ih =>
      intro acc n hne hnp
      unfold bindAttrsAux
      split
      · next hc =>
          simp only [Bool.and_eq_true] at hc
          rw [ih _ n hne hnp, attrLookup_append_single]
          by_cases hon : o.name = n
          · have haccn : attrLookup acc n = none := by
              apply attrLookup_eq_none_of_not_mem
              rw [← hon]
              simpa using hc.2
            have hfo : (o.name == n) = true := by simpa using hon
            simp [haccn, List.find?, hfo]
          · have hfo : (o.name == n) = false := by simpa using hon
            simp [List.find?, hfo]
      · next hc =>
          rw [ih acc n hne hnp]
          by_cases hon : o.name = n
          · have hA : (o.name != "") = true := by
              subst hon
              simpa using hne
            have hB : (!pre.contains o.name) = true := by
              subst hon
              simpa using hnp
            have hC : ¬(!(acc.map Prod.fst).contains o.name) = true := by
              intro hC
              exact hc (by rw [hA, hB, hC]; rfl)
            have hmem : n ∈ acc.map Prod.fst := by
              by_cases h1 : (acc.map Prod.fst).contains o.name = true
              · exact hon ▸ List.mem_of_elem_eq_true h1
              · have h1' : (acc.map Prod.fst).contains o.name = false := by simpa using h1
                exact absurd (by rw [h1']; rfl) hC
            obtain ⟨v, hv⟩ := attrLookup_isSome_of_mem n acc hmem
            simp [hv]
          · have hfo : (o.name == n) = false := by simpa using hon
            simp [List.find?, hfo]

/--
C10: when a Response is constructed, an observed slot content is bound as an
attribute exactly when the slot name is non-empty and no attribute of that
name already exists (neither a pre-existing class member nor a binding made
by an earlier slot), so there is at most one binding per name, the first
occurrence wins on duplicates, and pre-existing members are never
overwritten: looking one up among the slot bindings yields nothing.
-/
theorem response_attribute_binding (pre : List String) (outs : List Output) :
    ((bindAttrs pre outs).map Prod.fst).Nodup ∧
    (∀ n, n ∈ (bindAttrs pre outs).map Prod.fst → n ∉ pre ∧ n ≠ "" ∧ ∃ o ∈ outs, o.name = n) ∧
    (∀ n, n ∈ pre → attrLookup (bindAttrs pre outs) n = none) ∧
    (∀ n, n ≠ "" → n ∉ pre →
      attrLookup (bindAttrs pre outs) n = (outs.find? fun o => o.name == n).map (·.content)) := by
  refine ⟨?_, ?_, ?_, ?_⟩
  · exact bindAttrsAux_names_nodup pre outs [] (by simp)
  · intro n h
    rcases bindAttrsAux_names_mem pre outs [] n h with h0 | h0
    · simp at h0
    · exact h0
  · intro n hn
    apply attrLookup_eq_none_of_not_mem
    intro hmem
    rcases bindAttrsAux_names_mem pre outs [] n hmem with h0 | h0
    · simp at h0
    · exact h0.1 hn
  · intro n hne hnp
    have h := bindAttrsAux_lookup pre outs [] n hne hnp
    simpa [attrLookup] using h

/-- Witness for C10 at a reply carrying a duplicate name, an unnamed slot and
a slot whose name collides with a pre-existing member. -/
theorem response_attribute_binding_witness :
    attrLookup (bindAttrs responseMembers attrOutsW) "python" = some "a = 10" ∧
    attrLookup (bindAttrs responseMembers attrOutsW) "__str__" = none ∧
    ((bindAttrs responseMembers attrOutsW).map Prod.fst).Nodup := by
  have h := response_attribute_binding responseMembers attrOutsW
  refine ⟨?_, ?_, h.1⟩
  · rw [h.2.2.2 "python" (by decide) (by decide)]
    rfl
  · exact h.2.2.1 "__str__" (by decide)

/-
The retry loop: helper facts about feedback, the prompt trace, and the loop
itself.
-/

theorem buildToolsDict_tools_ok :
    ∀ (ts : List (String × Tool)) (d : List (String × Tool)),
      buildToolsDict d (ts.map fun nt => ToolArg.tool nt.2) =
        .ok (ts.foldl (fun d nt => dictInsert d (nt.2.name, nt.2)) d) := by
  intro ts
  induction ts with
  | nil => intro d; rfl
  | cons x rest ih =>
      intro d
      simp only [List.map_cons, buildToolsDict, toolArgEntry, List.foldl_cons]
      exact ih (dictInsert d (x.2.name, x.2))

theorem errorFeedback_ok (p : Prompt) (e : PyErr) (h : dupOutputErrors p.outputs = []) :
    ∃ p', p.errorFeedback e = .ok p' ∧ p'.outputs = p.outputs ∧
      dupOutputErrors p'.outputs = [] := by
  refine ⟨{ template := Tmpl.seq p.template (Tmpl.seq (Tmpl.text "\n") (Tmpl.text (feedbackText e))),
            outputs := p.outputs ++ [],
            tools := p.tools.foldl (fun d nt => dictInsert d (nt.2.name, nt.2)) [] },
    ?_, by simp, by simpa using h⟩
  unfold Prompt.errorFeedback Prompt.addStr Prompt.addPrompt Prompt.make
  have hd : dupOutputErrors (p.outputs ++ ([] : List Output)) = [] := by simpa using h
  simp [buildToolsDict_tools_ok, hd]
  rw [show dictUnion p.tools [] = p.tools from rfl]
  simp [h]
  rfl

theorem promptAtFrom_succ_of_fail (llm : Backend) (k : Nat) (p p' : Prompt) (e : PyErr)
    (hatt : attempt llm k p = .error e) (hpr : e.isPrympt = true)
    (hfb : p.errorFeedback e = .ok p') :
    ∀ j, promptAtFrom llm (k + 1) p' j = promptAtFrom llm k p (j + 1) := by
  intro j
  induction j with
  | zero =>
      show p' = promptAtFrom llm k p 1
      simp [promptAtFrom, hatt, hpr, hfb]
  | succ j ih =>
      show _ = promptAtFrom llm k p (j + 2)
      have harith : k + 1 + j = k + (j + 1) := by omega
      conv_lhs => rw [promptAtFrom]
      conv_rhs => rw [promptAtFrom]
      rw [ih, harith]

theorem queryFrom_all_fail (llm : Backend) :
    ∀ (n k : Nat) (p : Prompt) (last : Option PyErr),
      1 ≤ n →
      dupOutputErrors p.outputs = [] →
      (∀ j, j < n →
        ∃ msg, attempt llm (k + j) (promptAtFrom llm k p j) = .error (.responseError msg)) →
      ∃ msg, attempt llm (k + (n - 1)) (promptAtFrom llm k p (n - 1)) =
          .error (.responseError msg) ∧
        queryFrom llm k n p last = (.raised (.responseError msg), n) := by
  intro n
  induction n with
  | zero => intro k p last h; omega
  | succ n ih =>
      intro k p last _ hwf hfail
      obtain ⟨msg0, h0⟩ := hfail 0 (by omega)
      have h0' : attempt llm k p = .error (.responseError msg0) := by simpa using h0
      obtain ⟨p', hfb, hpout, hpwf⟩ := errorFeedback_ok p (.responseError msg0) hwf
      by_cases hn : n = 0
      · subst hn
        refine ⟨msg0, by simpa using h0, ?_⟩
        simp [queryFrom, h0', PyErr.isPrympt, hfb]
      · have hn1 : 1 ≤ n := by omega
        have hshift := promptAtFrom_succ_of_fail llm k p p' (.responseError msg0) h0' rfl hfb
        have hfail' : ∀ j, j < n →
            ∃ msg, attempt llm ((k + 1) + j) (promptAtFrom llm (k + 1) p' j) =
              .error (.responseError msg) := by
          intro j hj
          rw [hshift j]
          have harith : (k + 1) + j = k + (j + 1) := by omega
          rw [harith]
          exact hfail (j + 1) (by omega)
        obtain ⟨msg, hm, hq⟩ := ih (k + 1) p' (some (.responseError msg0)) hn1 hpwf hfail'
        refine ⟨msg, ?_, ?_⟩
        · rw [show (n + 1) - 1 = n from rfl]
          have e1 : promptAtFrom llm k p n = promptAtFrom llm (k + 1) p' (n - 1) := by
            rw [hshift (n - 1)]
            congr 1
            omega
          have e2 : k + n = (k + 1) + (n - 1) := by omega
          rw [e1, e2]
          exact hm
        · show queryFrom llm k (n + 1) p last = _
          simp only [queryFrom, h0', PyErr.isPrympt, hfb]
          simp [hq]

/--
C1: for every retry bound R of at least 1 and every backend whose reply never
validates — every attempt ends in a ResponseError raised by the Response
construction against the prompt in force at that attempt — query performs
exactly R backend invocations and then re-raises the validation error of the
R-th attempt itself, not a wrapper error: the raised value is precisely the
ResponseError of the final attempt.
-/
theorem query_retry_termination (llm : Backend) (p : Prompt) (R : Nat)
    (hR : 1 ≤ R) (hwf : dupOutputErrors p.outputs = [])
    (hfail : ∀ j, j < R →
      ∃ msg, attempt llm j (promptAt llm p j) = .error (.responseError msg)) :
    ∃ msg, attempt llm (R - 1) (promptAt llm p (R - 1)) = .error (.responseError msg) ∧
      p.query llm R = (.raised (.responseError msg), R) := by
  have h := queryFrom_all_fail llm R 0 p none hR hwf (by
    intro j hj
    simpa [promptAt] using hfail j hj)
  simpa [Prompt.query, promptAt] using h

/-- Witness for C1: a backend returning an envelope-free reply against a
prompt declaring one slot, with R = 2: two invocations and the second count
mismatch error is re-raised. -/
theorem query_retry_termination_witness :
    ∃ msg, Prompt.query pOneSlot llmEmptyReply 2 =
      (QueryOutcome.raised (.responseError msg), 2) := by
  obtain ⟨msg, -, hq⟩ := query_retry_termination llmEmptyReply pOneSlot 2 (by omega) (by decide)
    (fun j hj => by
      interval_cases j
      · exact ⟨"Expected 1 outputs in LLM response, but got 0", rfl⟩
      · exact ⟨"Expected 1 outputs in LLM response, but got 0", rfl⟩)
  exact ⟨msg, hq⟩

/-
The catch policy of the retry loop.
-/

theorem queryFrom_count_pos (llm : Backend) :
    ∀ (n k : Nat) (p : Prompt) (last : Option PyErr),
      1 ≤ n → 1 ≤ (queryFrom llm k n p last).2 := by
  intro n
  cases n with
  | zero => intro k p last h; omega
  | succ n =>
      intro k p last _
      cases hatt : attempt llm k p with
      | ok r => simp [queryFrom, hatt]
      | error e =>
          by_cases hpr : e.isPrympt = true
          · cases hfb : p.errorFeedback e with
            | ok p' =>
                simp [queryFrom, hatt, hpr, hfb]
            | error e2 =>
                simp [queryFrom, hatt, hpr, hfb]
          · have hpr' : e.isPrympt = false := by simpa using hpr
            simp [queryFrom, hatt, hpr']

/--
C3 counterexample: the claim says a MalformedOutput raised while decoding the
reply propagates immediately, uncaught and unretried; on the code the except
clause catches the whole PrymptError family, so with a backend whose reply
always fails integer coercion and retries = 2 the backend is invoked twice
(not once) and the MalformedOutput of the second attempt is re-raised after
the loop — the error was caught and retried.
-/
theorem query_catches_malformed_counterexample :
    Prompt.query pPlain llmBadCast 2 =
      (QueryOutcome.raised
        (.malformedOutput "Could not cast parameter value hello to suggested type int"), 2) := by
  rfl

/--
C3 amended: the except clause of the retry loop catches exactly the
PrymptError family — ResponseError and also MalformedOutput, PromptError,
ConcatenationError and ReplacementError — while errors outside the family
(backend-level errors and other interpreter errors) propagate immediately to
the caller after a single invocation: if the first attempt raises a
non-prympt error, query raises it with exactly one backend invocation; if it
raises a prympt-family error and at least one retry remains, a second
invocation occurs.
-/
theorem query_catch_policy (llm : Backend) (p : Prompt) (n : Nat) (e : PyErr)
    (hatt : attempt llm 0 p = .error e) (hn : 1 ≤ n) :
    (e.isPrympt = false → p.query llm n = (.raised e, 1)) ∧
    (e.isPrympt = true → 2 ≤ n → dupOutputErrors p.outputs = [] →
      2 ≤ (p.query llm n).2) := by
  obtain ⟨m, rfl⟩ : ∃ m, n = m + 1 := ⟨n - 1, by omega⟩
  constructor
  · intro hf
    unfold Prompt.query
    simp [queryFrom, hatt, hf]
  · intro ht hm hwf
    obtain ⟨p', hfb, -, -⟩ := errorFeedback_ok p e hwf
    unfold Prompt.query
    simp only [queryFrom, hatt, ht, hfb]
    have hpos := queryFrom_count_pos llm m 1 p' (some e) (by omega)
    simp
    omega

/-- Witness for the amended C3: a backend-level error escapes after one
invocation, while a caught MalformedOutput leads to a second invocation. -/
theorem query_catch_policy_witness :
    Prompt.query pPlain llmBackendBoom 3 = (QueryOutcome.raised (.backendError "boom"), 1) ∧
    2 ≤ (Prompt.query pPlain llmBadCast 2).2 := by
  constructor
  · exact (query_catch_policy llmBackendBoom pPlain 3 (.backendError "boom") rfl (by omega)).1 rfl
  · exact (query_catch_policy llmBadCast pPlain 2
      (.malformedOutput "Could not cast parameter value hello to suggested type int") rfl
      (by omega)).2 rfl (by omega) (by decide)

/-
The retries = 0 edge case.
-/

/--
C4 amended: with retries = 0 the loop body never runs, the backend is never
invoked (zero invocations), and query raises immediately — but the raised
error is the interpreter TypeError produced by re-raising None (last_error
was never set), not a configuration or bounds error about retries.
-/
theorem query_zero_retries (llm : Backend) (p : Prompt) :
    p.query llm 0 = (.raised (.typeError "exceptions must derive from BaseException"), 0) := rfl

/--
C4 counterexample: at a concrete prompt and backend, retries = 0 raises the
TypeError coming from raise None — in the error taxonomy this is not a
configuration/bounds error, so the claim that a configuration/bounds error
(and not an unrelated one) is raised fails; the backend invocation count 0
confirms the backend is never invoked.
-/
theorem query_zero_retries_counterexample :
    Prompt.query pOneSlot llmEmptyReply 0 =
      (QueryOutcome.raised (.typeError "exceptions must derive from BaseException"), 0) := rfl

/-
Substitution on a prompt that carries tools.
-/

/--
C6: evaluating the code at the failing input. Prompt.__call__ passes
self.tools.items() — (name, tool) tuples — to the Prompt constructor, whose
dict comprehension reads .name off each element; with one or more tools the
first element is a tuple and construction raises AttributeError, so the call
does not return a new Prompt carrying the same slots and tools as the claim
states. (Prompt.__add__ passes .values() and is unaffected; the constructor
annotation asks for List of Tool, so the tuples are the slip.)
-/
theorem call_with_tools_attribute_error :
    Prompt.call pWithTool [] [] = .error (.attributeError "tuple object has no attribute name") := by
  rfl

/-
Stringification does not mutate the prompt: the placeholder assignments land
only on the deep copies, never on the original heap cells.
-/

theorem heapGet_set_of_ne (l : Heap) (r x : Nat) (v : Output) (h : r ≠ x) :
    heapGet (l.set r v) x = heapGet l x := by
  unfold heapGet
  simp [List.getD_eq_getElem?_getD, List.getElem?_set_ne h]

theorem heapGet_append_left (l t : Heap) (x : Nat) (hx : x < l.length) :
    heapGet (l ++ t) x = heapGet l x := by
  unfold heapGet
  simp [List.getD_eq_getElem?_getD, List.getElem?_append_left hx]

theorem foldl_setContent_outside :
    ∀ (ws : List Nat) (h1 : Heap) (m : Nat), (∀ r ∈ ws, m ≤ r) → ∀ x, x < m →
      heapGet (ws.foldl (fun hh r => setContent hh r (placeholderContent (heapGet hh r))) h1) x =
        heapGet h1 x := by
  intro ws
  induction ws with
  | nil => intro h1 m _ x _; rfl
  | cons w ws ih =>
      intro h1 m hall x hx
      simp only [List.foldl_cons]
      rw [ih _ m (fun r hr => hall r (by simp [hr])) x hx]
      unfold setContent
      exact heapGet_set_of_ne h1 w x _ (by have := hall w (by simp); omega)

/--
C9: stringifying a Prompt never mutates it — the template, the slot
references and the tools of the prompt value are untouched by construction,
and every heap cell of the original prompt (each declared slot, its content
field included) is identical before and after Prompt.__str__, because the
placeholder assignments are performed only on the freshly allocated deep
copies.
-/
theorem str_does_not_mutate (p : PromptH) (h : Heap) (r : Nat) (hr : r < h.length) :
    heapGet (promptStrH p h).2 r = heapGet h r := by
  unfold promptStrH
  split
  · rfl
  · simp only [deepcopyAlloc]
    rw [foldl_setContent_outside _ _ h.length ?hall r hr, heapGet_append_left _ _ r hr]
    case hall =>
      intro w hw
      simp only [List.mem_map, List.mem_range] at hw
      obtain ⟨i, -, rfl⟩ := hw
      omega

/-- Witness for C9 at a two-cell heap whose cells are both referenced by the
prompt. -/
theorem str_does_not_mutate_witness :
    heapGet (promptStrH pHeapW heapW).2 0 = heapGet heapW 0 ∧
    heapGet (promptStrH pHeapW heapW).2 1 = heapGet heapW 1 :=
  ⟨str_does_not_mutate pHeapW heapW 0 (by decide), str_does_not_mutate pHeapW heapW 1 (by decide)⟩

end Prympt
